import Mathlib

/-!
Shallow embedding of the `rusty_ad_lock` advisory-locking library.

The embedding follows the source files:
- `src/lock/sqlx/mysql.rs`   (`MySqlLocker::with_locking`, `process_string`)
- `src/lock/collection/mod.rs` (`StdCollectionLocker::with_locking`, `try_lock`,
  the release-notification loop)
- `src/lock/mod.rs`          (the `Error` enum)

Rust strings are UTF-8; `s.len()` counts bytes and `&s[..24]` byte-slices
(panicking when byte 24 is not a character boundary), so keys are modelled as
Lean `String`s together with their UTF-8 byte encoding, and the slicing is
`Option`-valued (`none` = panic).
-/

set_option maxRecDepth 20000

/-- UTF-8 encoding of one Unicode scalar value, as a list of byte values
(mirrors the byte sequence Rust stores for the character). -/
def utf8EncodeChar (c : Char) : List Nat :=
  let n := c.toNat
  if n < 128 then [n]
  else if n < 2048 then [192 ||| (n >>> 6), 128 ||| (n &&& 63)]
  else if n < 65536 then
    [224 ||| (n >>> 12), 128 ||| ((n >>> 6) &&& 63), 128 ||| (n &&& 63)]
  else
    [240 ||| (n >>> 18), 128 ||| ((n >>> 12) &&& 63),
     128 ||| ((n >>> 6) &&& 63), 128 ||| (n &&& 63)]

/-- Total UTF-8 byte length of a character list. -/
def charsByteLen (cs : List Char) : Nat :=
  cs.foldr (fun c a => (utf8EncodeChar c).length + a) 0

/-- The UTF-8 bytes of a string: what Rust's `s.as_bytes()` yields. -/
def utf8Bytes (s : String) : List Nat :=
  s.data.foldr (fun c acc => utf8EncodeChar c ++ acc) []

/-- Rust's `s.len()`: the number of UTF-8 bytes of the string. -/
def byteLen (s : String) : Nat := charsByteLen s.data

/-- Rust byte slicing `&s[..n]` on a character list: returns the characters
making up the first `n` bytes, or `none` when byte index `n` falls strictly
inside a multi-byte character (in Rust this panics). -/
def prefixBytes : Nat → List Char → Option (List Char)
  | 0, _ => some []
  | _ + 1, [] => none
  | n + 1, c :: cs =>
      let w := (utf8EncodeChar c).length
      if w ≤ n + 1 then (prefixBytes (n + 1 - w) cs).map (fun p => c :: p)
      else none

/-! ### SHA-1 (the `sha1` crate's `Sha1` digest called by `process_string`) -/

/-- 32-bit left rotation. -/
def rotl32 (n x : Nat) : Nat :=
  (((x % 4294967296) <<< n) ||| ((x % 4294967296) >>> (32 - n))) % 4294967296

/-- The SHA-1 round function for round `t`. -/
def sha1F (t b c d : Nat) : Nat :=
  if t < 20 then (b &&& c) ||| ((4294967295 ^^^ b) &&& d)
  else if t < 40 then b ^^^ c ^^^ d
  else if t < 60 then (b &&& c) ||| (b &&& d) ||| (c &&& d)
  else b ^^^ c ^^^ d

/-- The SHA-1 round constant for round `t`. -/
def sha1K (t : Nat) : Nat :=
  if t < 20 then 1518500249
  else if t < 40 then 1859775393
  else if t < 60 then 2400959708
  else 3395469782

/-- Group a byte list into big-endian 32-bit words. -/
def bytesToWords : List Nat → List Nat
  | b0 :: b1 :: b2 :: b3 :: rest =>
      (b0 * 16777216 + b1 * 65536 + b2 * 256 + b3) :: bytesToWords rest
  | _ => []

/-- Message-schedule extension, on the reversed word list (head = most recent
word): each step prepends `rotl1 (w[i-3] xor w[i-8] xor w[i-14] xor w[i-16])`. -/
def sha1ExtendRev : Nat → List Nat → List Nat
  | 0, acc => acc
  | fuel + 1, acc =>
      sha1ExtendRev fuel (rotl32 1
        ((acc.getD 2 0) ^^^ (acc.getD 7 0) ^^^ (acc.getD 13 0) ^^^ (acc.getD 15 0)) :: acc)

/-- Extend the 16 block words to the 80-word SHA-1 message schedule. -/
def sha1Extend (w : List Nat) : List Nat :=
  (sha1ExtendRev (80 - w.length) w.reverse).reverse

/-- The 80 SHA-1 rounds over the message schedule. -/
def sha1Rounds : List Nat → Nat → Nat × Nat × Nat × Nat × Nat → Nat × Nat × Nat × Nat × Nat
  | [], _, st => st
  | wi :: rest, t, (a, b, c, d, e) =>
      let temp := (rotl32 5 a + sha1F t b c d + e + sha1K t + wi) % 4294967296
      sha1Rounds rest (t + 1) (temp, a, rotl32 30 b, c, d)

/-- Process one 64-byte block, updating the five chaining words. -/
def sha1Compress (hs : Nat × Nat × Nat × Nat × Nat) (block : List Nat) :
    Nat × Nat × Nat × Nat × Nat :=
  let w := sha1Extend (bytesToWords block)
  let r := sha1Rounds w 0 hs
  ((hs.1 + r.1) % 4294967296, (hs.2.1 + r.2.1) % 4294967296,
   (hs.2.2.1 + r.2.2.1) % 4294967296, (hs.2.2.2.1 + r.2.2.2.1) % 4294967296,
   (hs.2.2.2.2 + r.2.2.2.2) % 4294967296)

/-- Fold `sha1Compress` over the 64-byte blocks of a padded message; the fuel
argument (instantiated with the message length, enough for every block) makes
the recursion structural. -/
def sha1BlocksAux : Nat → Nat × Nat × Nat × Nat × Nat → List Nat →
    Nat × Nat × Nat × Nat × Nat
  | _, hs, [] => hs
  | 0, hs, _ => hs
  | fuel + 1, hs, l => sha1BlocksAux fuel (sha1Compress hs (l.take 64)) (l.drop 64)

/-- Process all 64-byte blocks of a padded message. -/
def sha1Blocks (hs : Nat × Nat × Nat × Nat × Nat) (l : List Nat) :
    Nat × Nat × Nat × Nat × Nat :=
  sha1BlocksAux l.length hs l

/-- Big-endian 8-byte rendering of a (64-bit) natural number. -/
def toBytesBE8 (n : Nat) : List Nat :=
  [(n >>> 56) % 256, (n >>> 48) % 256, (n >>> 40) % 256, (n >>> 32) % 256,
   (n >>> 24) % 256, (n >>> 16) % 256, (n >>> 8) % 256, n % 256]

/-- Big-endian 4-byte rendering of a 32-bit word. -/
def toBytesBE4 (n : Nat) : List Nat :=
  [(n >>> 24) % 256, (n >>> 16) % 256, (n >>> 8) % 256, n % 256]

/-- SHA-1 padding: `0x80`, zeros to 56 mod 64, then the bit length in 8
big-endian bytes. -/
def sha1Pad (msg : List Nat) : List Nat :=
  msg ++ 128 :: List.replicate ((55 + 64 - msg.length % 64) % 64) 0 ++
    toBytesBE8 (msg.length * 8)

/-- The 20-byte SHA-1 digest of a byte list. -/
def sha1 (msg : List Nat) : List Nat :=
  let hs := sha1Blocks (1732584193, 4023233417, 2562383102, 271733878, 3285377520)
    (sha1Pad msg)
  toBytesBE4 hs.1 ++ toBytesBE4 hs.2.1 ++ toBytesBE4 hs.2.2.1 ++
    toBytesBE4 hs.2.2.2.1 ++ toBytesBE4 hs.2.2.2.2

/-- Lowercase hexadecimal digit character for `n < 16`. -/
def hexDigitCh (n : Nat) : Char :=
  if n < 10 then Char.ofNat (48 + n) else Char.ofNat (87 + n)

/-- Lowercase hexadecimal rendering of a byte list, two digits per byte
(Rust's `format!("{:x}", digest)` on the 20-byte digest). -/
def hexChars : List Nat → List Char
  | [] => []
  | b :: rest => hexDigitCh (b / 16) :: hexDigitCh (b % 16) :: hexChars rest

/-- The 40 lowercase hex characters of the SHA-1 digest of a byte list. -/
def sha1HexChars (msg : List Nat) : List Char := hexChars (sha1 msg)

/-- `process_string` from `src/lock/sqlx/mysql.rs`: keys of byte length at
most 64 pass through unchanged; longer keys become the first 24 bytes of the
raw key followed by the 40-hex-character SHA-1 digest of the whole raw key.
`none` models the byte-slicing panic when byte 24 is not a char boundary. -/
def process_string (s : String) : Option String :=
  if byteLen s > 64 then
    (prefixBytes 24 s.data).map (fun p => String.mk (p ++ sha1HexChars (utf8Bytes s)))
  else some s

-- The SHA-1 embedding agrees with the standard test vectors (FIPS 180-1),
-- anchoring it to the digest the `sha1` crate computes.
example : sha1HexChars [97, 98, 99] = "a9993e364706816aba3e25717850c26c9cd0d89d".data := by decide
example : sha1HexChars [] = "da39a3ee5e6b4b0d3255bfef95601890afd80709".data := by decide

/-! ### The error taxonomy (`Error` in `src/lock/mod.rs`)

`Error::Sqlx` wraps an arbitrary sqlx transport error; transport errors are
opaque to this library, so they are modelled by an identifying `Nat`. -/

/-- The crate's `Error` enum (`src/lock/mod.rs`). -/
inductive Error where
  | Sqlx (e : Nat)
  | MySqlReturnedNull
  | MySqlUnknownSignal (signal : Int)
  | FailedToGetLock (key : String)
deriving DecidableEq, Repr

/-! ### Durations and the timeout binding -/

/-- `std::time::Duration`: whole seconds plus a nanosecond remainder
(well-formed values keep `nanos < 10^9`). -/
structure Duration where
  secs : Nat
  nanos : Nat
deriving DecidableEq, Repr

/-- `Duration::as_secs`: the whole-second part, fractional part discarded. -/
def Duration.asSecs (d : Duration) : Nat := d.secs

/-- `Duration::default()`: zero. -/
def durZero : Duration := ⟨0, 0⟩

/-- `timeout.unwrap_or_default().as_secs()` from `MySqlLocker::with_locking`:
the number of whole seconds bound to the backend acquire call. -/
def boundTimeout (timeout : Option Duration) : Nat :=
  ((timeout.getD durZero)).asSecs

/-! ### The delegated strategy (`MySqlLocker::with_locking`)

The MySQL backend is the environment: one invocation performs at most one
`begin`, one `SELECT GET_LOCK(?,?)` and one `DO RELEASE_LOCK(?)`, so the
backend is modelled as the oracle of those three responses. A transport
failure is `Except.error e` with `e` the opaque sqlx error id. -/

deriving instance DecidableEq for Except

/-- Backend responses observed by a single `MySqlLocker::with_locking` call. -/
structure MySqlBackend where
  beginRes : Except Nat Unit
  getLockRes : Except Nat (Option Int)
  releaseRes : Except Nat (Option Int)
deriving DecidableEq, Repr

/-- Observable outcome of one `MySqlLocker::with_locking` call: the returned
result, whether the critical section ran, and the parameters bound to the
acquire and release statements (`none` when the statement was never issued). -/
structure MySqlOutcome where
  result : Except Error Unit
  criticalRan : Bool
  acquireBind : Option (String × Nat)
  releaseBind : Option String
deriving DecidableEq, Repr

/-- `MySqlLocker::with_locking` (`src/lock/sqlx/mysql.rs`): normalize the key,
begin a transaction, issue `SELECT GET_LOCK(?,?)` bound to the normalized key
and the whole-second timeout, interpret the nullable integer signal, run the
critical section on success, then issue `DO RELEASE_LOCK(?)`.  The outer
`none` models the `process_string` byte-slicing panic. -/
def mysqlWithLocking (b : MySqlBackend) (key : String) (timeout : Option Duration) :
    Option MySqlOutcome :=
  match process_string key with
  | none => none
  | some nk =>
    some <|
      match b.beginRes with
      | .error e => ⟨.error (.Sqlx e), false, none, none⟩
      | .ok () =>
        let t := boundTimeout timeout
        match b.getLockRes with
        | .error e => ⟨.error (.Sqlx e), false, some (nk, t), none⟩
        | .ok sig =>
          match sig with
          | none => ⟨.error .MySqlReturnedNull, false, some (nk, t), none⟩
          | some s =>
            if s = 1 then
              match b.releaseRes with
              | .error e => ⟨.error (.Sqlx e), true, some (nk, t), some nk⟩
              | .ok _ => ⟨.ok (), true, some (nk, t), some nk⟩
            else if s = 0 then ⟨.error (.FailedToGetLock nk), false, some (nk, t), none⟩
            else ⟨.error (.MySqlUnknownSignal s), false, some (nk, t), none⟩

/-! ### The in-process strategy (`StdCollectionLocker`, `src/lock/collection/mod.rs`)

The process-wide `STATE : Mutex<HashMap<Arc<String>, HashSet<Arc<String>>>>`
maps a namespace (the pool's connection URL) to the set of held keys; it is
modelled as an association list with set semantics.  Each mutex-guarded
insert/remove is one atomic state transformation. -/

/-- The registry state: namespace (connection URL) to held key set. -/
abbrev LockState := List (String × List String)

/-- The held set of a namespace (empty when the namespace has no entry). -/
def heldSet : LockState → String → List String
  | [], _ => []
  | (u, ks) :: rest, url => if u = url then ks else heldSet rest url

/-- `try_lock` (`src/lock/collection/mod.rs` lines 48-54):
`state.entry(url).or_default().insert(key)` under the mutex — an atomic
test-and-insert returning whether the key was newly inserted. -/
def try_lock : LockState → String → String → Bool × LockState
  | [], url, key => (true, [(url, [key])])
  | (u, ks) :: rest, url, key =>
      if u = url then
        if key ∈ ks then (false, (u, ks) :: rest)
        else (true, (u, key :: ks) :: rest)
      else
        let r := try_lock rest url key
        (r.1, (u, ks) :: r.2)

/-- The release step (lines 90-91): `state.get_mut(&url).map(|s| s.remove(&key))`
— remove the key from the namespace's set when the namespace has an entry. -/
def releaseLock : LockState → String → String → LockState
  | [], _, _ => []
  | (u, ks) :: rest, url, key =>
      if u = url then (u, ks.filter (fun k => k ≠ key)) :: rest
      else (u, ks) :: releaseLock rest url key

/-- `tokio::sync::broadcast::Receiver::recv` error: the channel closed, or
this receiver lagged behind the channel buffer by `n` messages. -/
inductive RecvError where
  | closed
  | lagged (n : Nat)
deriving DecidableEq, Repr

/-- One observation of the wait loop: a received `Event::Released` message
together with the registry state at the moment it is handled (set by the other
concurrent tasks), or a receive error. The items are those delivered before
the `tokio::time::timeout` deadline; an exhausted trace means the deadline
fired with the loop still waiting. -/
inductive LoopItem where
  | recvOk (url key : String) (env : LockState)
  | recvErr (e : RecvError)
deriving DecidableEq, Repr

/-- Outcome of the wait loop: whether the lock was re-acquired, the registry
state as last touched, how many `try_lock` retries ran, how many trace items
were consumed, and the receive error if the loop broke on one. -/
structure WaitResult where
  acquired : Bool
  state : LockState
  retries : Nat
  consumed : Nat
  endedByErr : Option RecvError
deriving DecidableEq, Repr

/-- The wait loop (lines 65-77): on `Ok(Event::Released)` whose url and key
both match, retry `try_lock` (short-circuit guard) — break on success,
keep waiting on failure; ignore non-matching events; break unacquired on any
receive error; run out of items = the timeout fired. -/
def waitLoop (url key : String) : LockState → List LoopItem → WaitResult
  | cur, [] => ⟨false, cur, 0, 0, none⟩
  | cur, .recvErr e :: _ => ⟨false, cur, 0, 1, some e⟩
  | cur, .recvOk u k env :: rest =>
      if u = url ∧ k = key then
        let r := try_lock env url key
        if r.1 then ⟨true, r.2, 1, 1, none⟩
        else
          let w := waitLoop url key env rest
          ⟨w.acquired, w.state, w.retries + 1, w.consumed + 1, w.endedByErr⟩
      else
        let w := waitLoop url key cur rest
        ⟨w.acquired, w.state, w.retries, w.consumed + 1, w.endedByErr⟩

/-- Number of `Event::Released` messages in a trace matching `(url, key)`. -/
def countMatching (url key : String) : List LoopItem → Nat
  | [] => 0
  | .recvOk u k _ :: rest =>
      (if u = url ∧ k = key then 1 else 0) + countMatching url key rest
  | .recvErr _ :: rest => countMatching url key rest

/-- Observable outcome of one `StdCollectionLocker::with_locking` call:
result, final registry state as threaded through this call, published release
events, whether the call subscribed to the broadcast channel, total `try_lock`
calls, whether the critical section ran, the `broadcast::send` error (ignored
by the code; `some ()` when there were zero subscribers), and the wait loop's
receive error if any. -/
structure StdOutcome where
  result : Except Error Unit
  state : LockState
  published : List (String × String)
  subscribed : Bool
  tryCalls : Nat
  criticalRan : Bool
  sendErr : Option Unit
  waitErr : Option RecvError
deriving DecidableEq, Repr

/-- `StdCollectionLocker::with_locking` (`src/lock/collection/mod.rs`):
begin a transaction, attempt `try_lock` on the raw key; on failure return
`FailedToGetLock` at once when no timeout is given, otherwise subscribe and
run the wait loop over the messages received within the timeout; once
acquired, run the critical section, remove the key from the held set and
publish one `Event::Released` (a send error — zero receivers — is ignored). -/
def stdWithLocking (beginRes : Except Nat Unit) (st : LockState) (url key : String)
    (timeout : Option Duration) (trace : List LoopItem) (subscribers : Nat) :
    StdOutcome :=
  match beginRes with
  | .error e => ⟨.error (.Sqlx e), st, [], false, 0, false, none, none⟩
  | .ok () =>
    let first := try_lock st url key
    if first.1 then
      let st2 := releaseLock first.2 url key
      ⟨.ok (), st2, [(url, key)], false, 1, true,
        if subscribers = 0 then some () else none, none⟩
    else
      match timeout with
      | none => ⟨.error (.FailedToGetLock key), first.2, [], false, 1, false, none, none⟩
      | some _ =>
        let w := waitLoop url key first.2 trace
        if w.acquired then
          let st2 := releaseLock w.state url key
          ⟨.ok (), st2, [(url, key)], true, 1 + w.retries, true,
            if subscribers = 0 then some () else none, w.endedByErr⟩
        else
          ⟨.error (.FailedToGetLock key), w.state, [], true, 1 + w.retries, false,
            none, w.endedByErr⟩

/-! ### Lemmas about the in-process registry state -/

/-- `try_lock` succeeds exactly when the key is not held in the namespace. -/
theorem try_lock_fst_iff (st : LockState) (u k : String) :
    (try_lock st u k).1 = true ↔ k ∉ heldSet st u := by
  induction st with
  | nil => simp [try_lock, heldSet]
  | cons hd rest ih =>
    obtain ⟨u1, ks⟩ := hd
    by_cases hu : u1 = u
    · subst hu
      by_cases hk : k ∈ ks <;> simp [try_lock, heldSet, hk]
    · simp [try_lock, heldSet, hu, ih]

/-- After any `try_lock` call the key is held in the namespace. -/
theorem mem_heldSet_try_lock (st : LockState) (u k : String) :
    k ∈ heldSet (try_lock st u k).2 u := by
  induction st with
  | nil => simp [try_lock, heldSet]
  | cons hd rest ih =>
    obtain ⟨u1, ks⟩ := hd
    by_cases hu : u1 = u
    · subst hu
      by_cases hk : k ∈ ks <;> simp [try_lock, heldSet, hk]
    · simp [try_lock, heldSet, hu, ih]

/-- A `try_lock` on a held key fails and leaves the state unchanged. -/
theorem try_lock_of_mem (st : LockState) (u k : String) (h : k ∈ heldSet st u) :
    try_lock st u k = (false, st) := by
  induction st with
  | nil => simp [heldSet] at h
  | cons hd rest ih =>
    obtain ⟨u1, ks⟩ := hd
    by_cases hu : u1 = u
    · subst hu
      simp [heldSet] at h
      simp [try_lock, h]
    · simp [heldSet, hu] at h
      simp [try_lock, hu, ih h]

/-- After the release step the key is no longer held in the namespace. -/
theorem not_mem_heldSet_releaseLock (st : LockState) (u k : String) :
    k ∉ heldSet (releaseLock st u k) u := by
  induction st with
  | nil => simp [releaseLock, heldSet]
  | cons hd rest ih =>
    obtain ⟨u1, ks⟩ := hd
    by_cases hu : u1 = u
    · subst hu
      simp [releaseLock, heldSet]
    · simp [releaseLock, heldSet, hu, ih]

/-- `try_lock` leaves every other (namespace, key) pair untouched. -/
theorem heldSet_try_lock_frame (st : LockState) (u k u2 k2 : String)
    (h : ¬(u2 = u ∧ k2 = k)) :
    (k2 ∈ heldSet (try_lock st u k).2 u2) ↔ k2 ∈ heldSet st u2 := by
  induction st with
  | nil =>
    by_cases hu : u = u2
    · subst hu
      have hk : ¬ k2 = k := fun hk => h ⟨rfl, hk⟩
      simp [try_lock, heldSet, hk]
    · simp [try_lock, heldSet, hu]
  | cons hd rest ih =>
    obtain ⟨u1, ks⟩ := hd
    by_cases hu1 : u1 = u
    · subst hu1
      by_cases hk : k ∈ ks
      · simp [try_lock, hk]
      · by_cases hu2 : u1 = u2
        · subst hu2
          have hk2 : ¬ k2 = k := fun hk2 => h ⟨rfl, hk2⟩
          simp [try_lock, hk, heldSet, hk2]
        · simp [try_lock, hk, heldSet, hu2]
    · by_cases hu2 : u1 = u2
      · subst hu2
        simp [try_lock, hu1, heldSet, ih]
      · simp [try_lock, hu1, heldSet, hu2, ih]

/-- The release step leaves every other (namespace, key) pair untouched. -/
theorem heldSet_releaseLock_frame (st : LockState) (u k u2 k2 : String)
    (h : ¬(u2 = u ∧ k2 = k)) :
    (k2 ∈ heldSet (releaseLock st u k) u2) ↔ k2 ∈ heldSet st u2 := by
  induction st with
  | nil => simp [releaseLock]
  | cons hd rest ih =>
    obtain ⟨u1, ks⟩ := hd
    by_cases hu1 : u1 = u
    · subst hu1
      by_cases hu2 : u1 = u2
      · subst hu2
        have hk2 : ¬ k2 = k := fun hk2 => h ⟨rfl, hk2⟩
        simp [releaseLock, heldSet, hk2]
      · simp [releaseLock, heldSet, hu2]
    · by_cases hu2 : u1 = u2
      · subst hu2
        simp [releaseLock, hu1, heldSet, ih]
      · simp [releaseLock, hu1, heldSet, hu2, ih]

/-! ### Lemmas about normalization -/

/-- The lowercase hexadecimal alphabet produced by the digest rendering. -/
def hexAlphabet : List Char := "0123456789abcdef".data

/-- A successful byte-slice of `n` bytes has UTF-8 byte length exactly `n`. -/
theorem prefixBytes_byteLen : ∀ (cs : List Char) (n : Nat) (p : List Char),
    prefixBytes n cs = some p → charsByteLen p = n := by
  intro cs
  induction cs with
  | nil =>
    intro n p h
    match n with
    | 0 =>
      simp [prefixBytes] at h
      simp [h, charsByteLen]
    | n + 1 => simp [prefixBytes] at h
  | cons c rest ih =>
    intro n p h
    match n with
    | 0 =>
      simp [prefixBytes] at h
      simp [h, charsByteLen]
    | n + 1 =>
      simp only [prefixBytes] at h
      split at h
      · rename_i hw
        rw [Option.map_eq_some'] at h
        obtain ⟨p', hp', hpp⟩ := h
        have := ih (n + 1 - (utf8EncodeChar c).length) p' hp'
        subst hpp
        show (utf8EncodeChar c).length + charsByteLen p' = n + 1
        omega
      · exact absurd h (by simp)

/-- The SHA-1 digest is 20 bytes (160 bits) for every message. -/
theorem sha1_length (m : List Nat) : (sha1 m).length = 20 := by
  simp [sha1, toBytesBE4]

/-- Every digest byte is below 256. -/
theorem sha1_bytes_lt (m : List Nat) : ∀ b ∈ sha1 m, b < 256 := by
  intro b hb
  simp [sha1, toBytesBE4] at hb
  rcases hb with h | h | h | h | h | h | h | h | h | h | h | h | h | h | h | h | h | h | h | h <;>
    omega

/-- Hex rendering yields two characters per byte. -/
theorem hexChars_length : ∀ l : List Nat, (hexChars l).length = 2 * l.length := by
  intro l
  induction l with
  | nil => simp [hexChars]
  | cons b rest ih => simp [hexChars, ih]; omega

/-- Hex digits of values below 16 lie in the lowercase hex alphabet. -/
theorem hexDigitCh_mem : ∀ n, n < 16 → hexDigitCh n ∈ hexAlphabet := by decide

/-- Hex rendering of genuine bytes yields only hex-alphabet characters. -/
theorem hexChars_mem : ∀ (l : List Nat), (∀ b ∈ l, b < 256) →
    ∀ c ∈ hexChars l, c ∈ hexAlphabet := by
  intro l
  induction l with
  | nil => simp [hexChars]
  | cons b rest ih =>
    intro h c hc
    simp only [hexChars, List.mem_cons] at hc
    have hb : b < 256 := h b (by simp)
    rcases hc with rfl | rfl | hc
    · exact hexDigitCh_mem _ (by omega)
    · exact hexDigitCh_mem _ (by omega)
    · exact ih (fun x hx => h x (by simp [hx])) c hc

/-- Hex-alphabet characters are one UTF-8 byte wide. -/
theorem hexAlphabet_width : ∀ c ∈ hexAlphabet, (utf8EncodeChar c).length = 1 := by decide

/-- UTF-8 byte length distributes over list concatenation. -/
theorem charsByteLen_append (p q : List Char) :
    charsByteLen (p ++ q) = charsByteLen p + charsByteLen q := by
  induction p with
  | nil => simp [charsByteLen]
  | cons c rest ih =>
    show (utf8EncodeChar c).length + charsByteLen (rest ++ q) = _
    rw [ih]
    show _ = (utf8EncodeChar c).length + charsByteLen rest + charsByteLen q
    omega

/-- A list of one-byte characters has UTF-8 byte length its length. -/
theorem charsByteLen_ascii : ∀ (l : List Char),
    (∀ c ∈ l, (utf8EncodeChar c).length = 1) → charsByteLen l = l.length := by
  intro l
  induction l with
  | nil => simp [charsByteLen]
  | cons c rest ih =>
    intro h
    show (utf8EncodeChar c).length + charsByteLen rest = rest.length + 1
    rw [h c (by simp), ih (fun x hx => h x (by simp [hx]))]
    omega

/-- The digest rendering is exactly 40 one-byte hex characters. -/
theorem sha1HexChars_spec (m : List Nat) :
    (sha1HexChars m).length = 40 ∧ charsByteLen (sha1HexChars m) = 40 ∧
    ∀ c ∈ sha1HexChars m, c ∈ hexAlphabet := by
  have hmem : ∀ c ∈ sha1HexChars m, c ∈ hexAlphabet :=
    hexChars_mem (sha1 m) (sha1_bytes_lt m)
  have hlen : (sha1HexChars m).length = 40 := by
    show (hexChars (sha1 m)).length = 40
    rw [hexChars_length, sha1_length]
  refine ⟨hlen, ?_, hmem⟩
  rw [charsByteLen_ascii _ (fun c hc => hexAlphabet_width c (hmem c hc)), hlen]

/-! ### Claim C2 — key normalization -/

/-- C2: for every raw key, normalization is the identity when the key's byte
length is at most 64; otherwise the result is the first 24 bytes of the raw
key concatenated with the 40-lowercase-hex-character rendering of the 20-byte
(160-bit) SHA-1 digest of the entire raw string, a normalized key of exactly
64 bytes. -/
theorem C2_normalization (s : String) :
    (byteLen s ≤ 64 → process_string s = some s) ∧
    (byteLen s > 64 → ∀ p, prefixBytes 24 s.data = some p →
      process_string s = some (String.mk (p ++ sha1HexChars (utf8Bytes s))) ∧
      charsByteLen p = 24 ∧
      (sha1 (utf8Bytes s)).length = 20 ∧
      (sha1HexChars (utf8Bytes s)).length = 40 ∧
      (∀ c ∈ sha1HexChars (utf8Bytes s), c ∈ hexAlphabet) ∧
      byteLen (String.mk (p ++ sha1HexChars (utf8Bytes s))) = 64) := by
  constructor
  · intro h
    have : ¬ byteLen s > 64 := by omega
    simp [process_string, this]
  · intro h p hp
    have hspec := sha1HexChars_spec (utf8Bytes s)
    have hplen := prefixBytes_byteLen s.data 24 p hp
    refine ⟨by simp [process_string, h, hp], hplen, sha1_length _, hspec.1, hspec.2.2, ?_⟩
    show charsByteLen (p ++ sha1HexChars (utf8Bytes s)) = 64
    rw [charsByteLen_append, hplen, hspec.2.1]

/-- The 65-byte ASCII key used by the repository's own
`lock_with_text_longer_than_64` tests. -/
def key65 : String := "G2l1litxGfagbBWcQUymJ7cqYVyqQFPsr4JoimK4eXMRdN5n8tcofOYUJhEMHcbVH"

theorem C2_normalization_witness :
    process_string key65 =
      some (String.mk ("G2l1litxGfagbBWcQUymJ7cq".data ++ sha1HexChars (utf8Bytes key65))) ∧
    byteLen (String.mk ("G2l1litxGfagbBWcQUymJ7cq".data ++ sha1HexChars (utf8Bytes key65))) = 64 ∧
    process_string "abc" = some "abc" := by
  have h := (C2_normalization key65).2 (by decide) "G2l1litxGfagbBWcQUymJ7cq".data (by decide)
  exact ⟨h.1, h.2.2.2.2.2, (C2_normalization "abc").1 (by decide)⟩

/-! ### Claim C9 — normalization is not total over UTF-8 keys -/

/-- 23 one-byte characters, one two-byte character (so byte index 24 falls
inside it), then 41 more one-byte characters: 66 bytes in 65 characters. -/
def multibyteKey : String :=
  "aaaaaaaaaaaaaaaaaaaaaaaébbbbbbbbbbbbbbbbbbbbbbbbbbbbbbbbbbbbbbbbb"

/-- C9: normalization measures length in bytes and byte-slices the first 24
bytes, so a raw key longer than 64 bytes whose byte index 24 falls inside a
multi-byte character makes `process_string` panic (modelled as `none`)
instead of returning a key. -/
theorem C9_byte_slicing_panic :
    byteLen multibyteKey = 66 ∧ multibyteKey.data.length = 65 ∧
    prefixBytes 24 multibyteKey.data = none ∧
    process_string multibyteKey = none := by decide

/-! ### Claim C4 — interpretation of the backend acquire signal -/

/-- C4: under the delegated strategy, signal integer 1 runs the critical
section; 0 yields `FailedToGetLock` with the normalized key; a NULL response
yields the distinct `MySqlReturnedNull`; any other integer yields
`MySqlUnknownSignal`; and every one of these error outcomes is produced with
the critical section never invoked. -/
theorem C4_signal_interpretation (b : MySqlBackend) (k nk : String)
    (t : Option Duration) (hk : process_string k = some nk)
    (hb : b.beginRes = .ok ()) :
    ∀ out, mysqlWithLocking b k t = some out →
      (b.getLockRes = .ok (some 1) → out.criticalRan = true) ∧
      (b.getLockRes = .ok (some 0) →
        out.result = .error (.FailedToGetLock nk) ∧ out.criticalRan = false) ∧
      (b.getLockRes = .ok none →
        out.result = .error .MySqlReturnedNull ∧ out.criticalRan = false) ∧
      (∀ s : Int, s ≠ 0 → s ≠ 1 → b.getLockRes = .ok (some s) →
        out.result = .error (.MySqlUnknownSignal s) ∧ out.criticalRan = false) ∧
      (∀ e, b.getLockRes = .error e →
        out.result = .error (.Sqlx e) ∧ out.criticalRan = false) ∧
      (Error.MySqlReturnedNull ≠ Error.FailedToGetLock nk) := by
  intro out hout
  unfold mysqlWithLocking at hout
  rw [hk, hb] at hout
  simp only [Option.some.injEq] at hout
  subst hout
  refine ⟨?_, ?_, ?_, ?_, ?_, by simp⟩
  · intro hgl
    rw [hgl]
    cases hr : b.releaseRes <;> simp
  · intro hgl
    rw [hgl]
    simp
  · intro hgl
    rw [hgl]
    simp
  · intro s h0 h1 hgl
    rw [hgl]
    simp [h0, h1]
  · intro e hgl
    rw [hgl]
    simp

/-- Backend oracle answering the acquire call with contention (signal 0). -/
def backendContended : MySqlBackend := ⟨.ok (), .ok (some 0), .ok none⟩

/-- Backend oracle answering the acquire call with NULL. -/
def backendNull : MySqlBackend := ⟨.ok (), .ok none, .ok none⟩

/-- The observable outcome of a contended delegated call. -/
def outContended : MySqlOutcome :=
  ⟨.error (.FailedToGetLock "k"), false, some ("k", 0), none⟩

/-- The observable outcome of a NULL-answered delegated call. -/
def outNull : MySqlOutcome := ⟨.error .MySqlReturnedNull, false, some ("k", 0), none⟩

theorem C4_signal_interpretation_witness :
    (outContended.result = .error (.FailedToGetLock "k") ∧
      outContended.criticalRan = false) ∧
    (outNull.result = .error .MySqlReturnedNull ∧ outNull.criticalRan = false) := by
  have h0 := C4_signal_interpretation backendContended "k" "k" none (by decide) rfl
    outContended (by decide)
  have h1 := C4_signal_interpretation backendNull "k" "k" none (by decide) rfl
    outNull (by decide)
  exact ⟨h0.2.1 rfl, h1.2.2.1 rfl⟩

/-! ### Claim C1 — the held-set mutual-exclusion invariant -/

/-- C1: for every namespace and key, `try_lock` is an atomic test-and-insert
(the single mutex-guarded section is one state transformation): it succeeds
exactly when the key is absent, a key present in the set refuses every further
insertion until released (so at most one successful insertion per key can be
outstanding), the release step frees the key, and neither operation touches
any other (namespace, key) entry — entries are added only by a successful
acquisition of that key and removed only by its release. -/
theorem C1_mutual_exclusion_invariant (st : LockState) (u k u2 k2 : String) :
    ((try_lock st u k).1 = true ↔ k ∉ heldSet st u) ∧
    k ∈ heldSet (try_lock st u k).2 u ∧
    ((try_lock st u k).1 = true → (try_lock (try_lock st u k).2 u k).1 = false) ∧
    (k ∈ heldSet st u → try_lock st u k = (false, st)) ∧
    k ∉ heldSet (releaseLock st u k) u ∧
    (¬(u2 = u ∧ k2 = k) →
      ((k2 ∈ heldSet (try_lock st u k).2 u2) ↔ k2 ∈ heldSet st u2) ∧
      ((k2 ∈ heldSet (releaseLock st u k) u2) ↔ k2 ∈ heldSet st u2)) := by
  refine ⟨try_lock_fst_iff st u k, mem_heldSet_try_lock st u k, ?_,
    try_lock_of_mem st u k, not_mem_heldSet_releaseLock st u k,
    fun h => ⟨heldSet_try_lock_frame st u k u2 k2 h,
      heldSet_releaseLock_frame st u k u2 k2 h⟩⟩
  intro _
  have hmem := mem_heldSet_try_lock st u k
  rw [try_lock_of_mem _ _ _ hmem]

theorem C1_mutual_exclusion_invariant_witness :
    (try_lock ((try_lock [] "ns" "a").2) "ns" "a").1 = false ∧
    try_lock [("ns", ["a"])] "ns" "a" = (false, [("ns", ["a"])]) ∧
    (("b" ∈ heldSet (try_lock [("ns", ["b"])] "ns" "a").2 "ns") ↔
      "b" ∈ heldSet [("ns", ["b"])] "ns") := by
  have h0 := C1_mutual_exclusion_invariant [] "ns" "a" "ns" "b"
  have h1 := C1_mutual_exclusion_invariant [("ns", ["a"])] "ns" "a" "ns" "b"
  have h2 := C1_mutual_exclusion_invariant [("ns", ["b"])] "ns" "a" "ns" "b"
  exact ⟨h0.2.2.1 (by decide), h1.2.2.2.1 (by decide), (h2.2.2.2.2.2 (by decide)).1⟩

/-! ### Claim C10 — whole-second truncation of the timeout -/

/-- C10: the delegated strategy binds `timeout.unwrap_or_default().as_secs()`:
an absent timeout is bound as 0 seconds, every present timeout shorter than
one second is also bound as 0, and the whole call is then indistinguishable
from a call with no timeout at all. -/
theorem C10_timeout_truncation :
    boundTimeout none = 0 ∧
    (∀ d : Duration, d.secs * 1000000000 + d.nanos < 1000000000 →
      boundTimeout (some d) = 0) ∧
    (∀ (b : MySqlBackend) (k : String) (d : Duration),
      d.secs * 1000000000 + d.nanos < 1000000000 →
      mysqlWithLocking b k (some d) = mysqlWithLocking b k none) := by
  refine ⟨rfl, ?_, ?_⟩
  · intro d h
    show d.secs = 0
    omega
  · intro b k d h
    have hs : d.secs = 0 := by omega
    simp only [mysqlWithLocking, boundTimeout, Option.getD, Duration.asSecs,
      durZero, hs]

theorem C10_timeout_truncation_witness :
    boundTimeout (some ⟨0, 500000000⟩) = 0 ∧
    mysqlWithLocking backendContended "k" (some ⟨0, 500000000⟩) =
      mysqlWithLocking backendContended "k" none := by
  exact ⟨C10_timeout_truncation.2.1 ⟨0, 500000000⟩ (by decide),
    C10_timeout_truncation.2.2 backendContended "k" ⟨0, 500000000⟩ (by decide)⟩

/-! ### Claim C8 — release failures in the delegated strategy -/

/-- Backend oracle: acquisition succeeds, the release call fails in
transport. -/
def backendReleaseErr : MySqlBackend := ⟨.ok (), .ok (some 1), .error 7⟩

/-- C8 counterexample: a transport failure of the `DO RELEASE_LOCK(?)` call
after the critical section has run IS surfaced (the code applies `?` to the
release query), so the call does not return Ok regardless of the release
outcome: here acquisition and the critical section succeed, yet the result is
the sqlx error. -/
theorem C8_counterexample :
    mysqlWithLocking backendReleaseErr "k" none =
      some ⟨.error (.Sqlx 7), true, some ("k", 0), some "k"⟩ := by decide

/-- C8 (amended): the release's result value is never inspected — whatever
row the backend returns for `DO RELEASE_LOCK(?)` (even a did-not-release 0 or
NULL), the call returns Ok; but a transport error while issuing the release
call is surfaced as `Error::Sqlx` to the caller, after the critical section
has already run. -/
theorem C8_release_result_ignored (b : MySqlBackend) (k nk : String)
    (t : Option Duration) (hk : process_string k = some nk)
    (hb : b.beginRes = .ok ()) (hg : b.getLockRes = .ok (some 1)) :
    ∀ out, mysqlWithLocking b k t = some out →
      out.criticalRan = true ∧
      (∀ v, b.releaseRes = .ok v → out.result = .ok ()) ∧
      (∀ e, b.releaseRes = .error e → out.result = .error (.Sqlx e)) := by
  intro out hout
  unfold mysqlWithLocking at hout
  rw [hk, hb, hg] at hout
  simp only [Option.some.injEq] at hout
  subst hout
  refine ⟨?_, ?_, ?_⟩
  · cases hr : b.releaseRes <;> simp [hr]
  · intro v hr
    rw [hr]
    simp
  · intro e hr
    rw [hr]
    simp

/-- Backend oracle: acquisition succeeds, release is answered with the
backend-level failure value 0 (lock was not held by this session). -/
def backendReleaseZero : MySqlBackend := ⟨.ok (), .ok (some 1), .ok (some 0)⟩

/-- The observable outcome when the backend answers release with 0. -/
def outReleaseZero : MySqlOutcome := ⟨.ok (), true, some ("k", 0), some "k"⟩

theorem C8_release_result_ignored_witness :
    outReleaseZero.criticalRan = true ∧ outReleaseZero.result = .ok () := by
  have h := C8_release_result_ignored backendReleaseZero "k" "k" none (by decide)
    rfl rfl outReleaseZero (by decide)
  exact ⟨h.1, h.2.1 (some 0) rfl⟩

/-! ### Claim C5 — absent timeout fails immediately -/

/-- C5: on a held key, a call with no timeout makes exactly one `try_lock`
attempt and returns `FailedToGetLock` with the key at once — it never
subscribes to the release bus, consumes no release events, runs no critical
section and publishes nothing (the registry state is left unchanged). -/
theorem C5_no_timeout_fails_immediately (st : LockState) (url key : String)
    (trace : List LoopItem) (subs : Nat) (h : key ∈ heldSet st url) :
    stdWithLocking (.ok ()) st url key none trace subs =
      ⟨.error (.FailedToGetLock key), st, [], false, 1, false, none, none⟩ := by
  have ht := try_lock_of_mem st url key h
  simp [stdWithLocking, ht]

theorem C5_no_timeout_fails_immediately_witness :
    stdWithLocking (.ok ()) [("u", ["k"])] "u" "k" none
        [.recvOk "u" "k" []] 3 =
      ⟨.error (.FailedToGetLock "k"), [("u", ["k"])], [], false, 1, false,
        none, none⟩ :=
  C5_no_timeout_fails_immediately [("u", ["k"])] "u" "k"
    [.recvOk "u" "k" []] 3 (by decide)

/-! ### Claim C6 — the wait loop -/

/-- Retries equal the matching release events among the consumed items. -/
theorem waitLoop_retries_eq (url key : String) :
    ∀ (trace : List LoopItem) (cur : LockState),
      (waitLoop url key cur trace).retries =
        countMatching url key (trace.take (waitLoop url key cur trace).consumed) := by
  intro trace
  induction trace with
  | nil => intro cur; simp [waitLoop, countMatching]
  | cons it rest ih =>
    intro cur
    cases it with
    | recvErr e => simp [waitLoop, countMatching]
    | recvOk u k env =>
      by_cases hm : u = url ∧ k = key
      · obtain ⟨hu, hk⟩ := hm
        subst hu; subst hk
        cases htl : (try_lock env u k).1 with
        | true => simp [waitLoop, htl, countMatching]
        | false =>
          simp [waitLoop, htl, countMatching, ih env]
          omega
      · simp [waitLoop, hm, countMatching, ih cur]

/-- When the loop ends unacquired and without a receive error, it has
consumed the whole trace: the exit was the timeout firing. -/
theorem waitLoop_exit (url key : String) :
    ∀ (trace : List LoopItem) (cur : LockState),
      (waitLoop url key cur trace).acquired = false →
      (waitLoop url key cur trace).endedByErr = none →
      (waitLoop url key cur trace).consumed = trace.length := by
  intro trace
  induction trace with
  | nil => intro cur _ _; simp [waitLoop]
  | cons it rest ih =>
    intro cur
    cases it with
    | recvErr e => simp [waitLoop]
    | recvOk u k env =>
      by_cases hm : u = url ∧ k = key
      · obtain ⟨hu, hk⟩ := hm
        subst hu; subst hk
        cases htl : (try_lock env u k).1 with
        | true => simp [waitLoop, htl]
        | false =>
          intro ha he
          simp [waitLoop, htl] at ha he ⊢
          exact ih env ha he
      · intro ha he
        simp [waitLoop, hm] at ha he ⊢
        exact ih cur ha he

/-- A matching release event whose registry state still holds the key causes
one more retry and then continued waiting on the remaining items. -/
theorem waitLoop_keeps_waiting (url key : String) (cur env : LockState)
    (rest : List LoopItem) (h : key ∈ heldSet env url) :
    waitLoop url key cur (.recvOk url key env :: rest) =
      ⟨(waitLoop url key env rest).acquired, (waitLoop url key env rest).state,
        (waitLoop url key env rest).retries + 1,
        (waitLoop url key env rest).consumed + 1,
        (waitLoop url key env rest).endedByErr⟩ := by
  have ht : (try_lock env url key).1 = false := by
    rw [try_lock_of_mem env url key h]
  simp [waitLoop, ht]

/-- A matching release event whose registry state has the key free makes the
retry succeed and the loop break acquired. -/
theorem waitLoop_succeeds (url key : String) (cur env : LockState)
    (rest : List LoopItem) (h : key ∉ heldSet env url) :
    waitLoop url key cur (.recvOk url key env :: rest) =
      ⟨true, (try_lock env url key).2, 1, 1, none⟩ := by
  have ht : (try_lock env url key).1 = true := (try_lock_fst_iff env url key).mpr h
  simp [waitLoop, ht]

/-- C6 counterexample: the loop matches any receive failure with
`Err(_) => break false`, so a lagged receiver (the broadcast buffer
overflowing this waiter) also ends the wait with the unavailable outcome —
a third exit reason beside timeout and bus closure.  Here the trace still
holds a matching release event after the lag (budget remained: the very same
continuation, without the lag item, acquires and returns Ok), the bus was
never closed, yet the call fails. -/
theorem C6_counterexample :
    (stdWithLocking (.ok ()) [("u", ["k"])] "u" "k" (some ⟨5, 0⟩)
        [.recvErr (.lagged 1), .recvOk "u" "k" [("u", [])]] 0).result =
      .error (.FailedToGetLock "k") ∧
    (stdWithLocking (.ok ()) [("u", ["k"])] "u" "k" (some ⟨5, 0⟩)
        [.recvErr (.lagged 1), .recvOk "u" "k" [("u", [])]] 0).waitErr =
      some (.lagged 1) ∧
    RecvError.lagged 1 ≠ RecvError.closed ∧
    (waitLoop "u" "k" [("u", ["k"])]
        [.recvErr (.lagged 1), .recvOk "u" "k" [("u", [])]]).consumed = 1 ∧
    (stdWithLocking (.ok ()) [("u", ["k"])] "u" "k" (some ⟨5, 0⟩)
        [.recvOk "u" "k" [("u", [])]] 0).result = .ok () := by decide

/-- C6 (amended): after a failed initial attempt with a timeout present, the
waiter subscribes and retries `try_acquire` exactly once per received release
event matching its (namespace, key) (a matching event with the key still held
adds one failed retry and the wait continues; one with the key free acquires),
and exits with the unavailable outcome only when the timeout budget elapses
(trace exhausted) or receiving from the bus fails — the bus being closed or
this receiver having lagged behind the broadcast buffer. -/
theorem C6_wait_loop (st : LockState) (url key : String) (d : Duration)
    (trace : List LoopItem) (subs : Nat) (h : key ∈ heldSet st url) :
    (stdWithLocking (.ok ()) st url key (some d) trace subs).subscribed = true ∧
    (stdWithLocking (.ok ()) st url key (some d) trace subs).tryCalls =
      1 + (waitLoop url key st trace).retries ∧
    (∀ cur : LockState, (waitLoop url key cur trace).retries =
      countMatching url key (trace.take (waitLoop url key cur trace).consumed)) ∧
    (∀ (cur env : LockState) (rest : List LoopItem), key ∈ heldSet env url →
      waitLoop url key cur (.recvOk url key env :: rest) =
        ⟨(waitLoop url key env rest).acquired, (waitLoop url key env rest).state,
          (waitLoop url key env rest).retries + 1,
          (waitLoop url key env rest).consumed + 1,
          (waitLoop url key env rest).endedByErr⟩) ∧
    (∀ (cur env : LockState) (rest : List LoopItem), key ∉ heldSet env url →
      waitLoop url key cur (.recvOk url key env :: rest) =
        ⟨true, (try_lock env url key).2, 1, 1, none⟩) ∧
    ((stdWithLocking (.ok ()) st url key (some d) trace subs).result =
        .error (.FailedToGetLock key) →
      (waitLoop url key st trace).acquired = false ∧
      ((waitLoop url key st trace).endedByErr = none →
        (waitLoop url key st trace).consumed = trace.length)) := by
  have ht := try_lock_of_mem st url key h
  refine ⟨?_, ?_,
    fun cur => waitLoop_retries_eq url key trace cur,
    fun cur env rest hm => waitLoop_keeps_waiting url key cur env rest hm,
    fun cur env rest hf => waitLoop_succeeds url key cur env rest hf, ?_⟩
  · cases hw : (waitLoop url key st trace).acquired <;>
      simp [stdWithLocking, ht, hw]
  · cases hw : (waitLoop url key st trace).acquired <;>
      simp [stdWithLocking, ht, hw]
  · intro hres
    cases hw : (waitLoop url key st trace).acquired with
    | true => simp [stdWithLocking, ht, hw] at hres
    | false => exact ⟨rfl, waitLoop_exit url key trace st hw⟩

theorem C6_wait_loop_witness :
    (stdWithLocking (.ok ()) [("u", ["k"])] "u" "k" (some ⟨1, 0⟩)
        [.recvOk "u" "k" [("u", [])]] 0).subscribed = true ∧
    (stdWithLocking (.ok ()) [("u", ["k"])] "u" "k" (some ⟨1, 0⟩)
        [.recvOk "u" "k" [("u", [])]] 0).tryCalls =
      1 + (waitLoop "u" "k" [("u", ["k"])] [.recvOk "u" "k" [("u", [])]]).retries := by
  have h := C6_wait_loop [("u", ["k"])] "u" "k" ⟨1, 0⟩
    [.recvOk "u" "k" [("u", [])]] 0 (by decide)
  exact ⟨h.1, h.2.1⟩

/-! ### Claim C7 — acquire-then-release is an identity on the held set -/

/-- A call on a free key acquires immediately and returns Ok. -/
theorem stdWithLocking_ok_of_free (st : LockState) (url key : String)
    (timeout : Option Duration) (trace : List LoopItem) (subs : Nat)
    (h : key ∉ heldSet st url) :
    (stdWithLocking (.ok ()) st url key timeout trace subs).result = .ok () := by
  have h1 : (try_lock st url key).1 = true := (try_lock_fst_iff st url key).mpr h
  simp [stdWithLocking, h1]

/-- C7: whenever an in-process `with_locking` call returns Ok, its critical
section ran, the key has been removed from the namespace's held set, exactly
one release event `(url, key)` was published, a send error from having zero
subscribers does not change the result, and an immediately following caller
on the same key with no timeout succeeds on the resulting state. -/
theorem C7_acquire_release_identity (beginRes : Except Nat Unit) (st : LockState)
    (url key : String) (timeout : Option Duration) (trace : List LoopItem)
    (subs : Nat)
    (hok : (stdWithLocking beginRes st url key timeout trace subs).result = .ok ()) :
    key ∉ heldSet (stdWithLocking beginRes st url key timeout trace subs).state url ∧
    (stdWithLocking beginRes st url key timeout trace subs).published = [(url, key)] ∧
    (stdWithLocking beginRes st url key timeout trace subs).criticalRan = true ∧
    (∀ subs2, (stdWithLocking beginRes st url key timeout trace subs2).result = .ok ()) ∧
    (∀ (trace2 : List LoopItem) (subs2 : Nat),
      (stdWithLocking (.ok ())
        (stdWithLocking beginRes st url key timeout trace subs).state url key
        none trace2 subs2).result = .ok ()) := by
  cases beginRes with
  | error e => simp [stdWithLocking] at hok
  | ok uu =>
    cases uu
    cases h1 : (try_lock st url key).1 with
    | true =>
      refine ⟨?_, ?_, ?_, ?_, ?_⟩
      · simp [stdWithLocking, h1, not_mem_heldSet_releaseLock]
      · simp [stdWithLocking, h1]
      · simp [stdWithLocking, h1]
      · intro subs2
        simp [stdWithLocking, h1]
      · intro trace2 subs2
        have hst : (stdWithLocking (.ok ()) st url key timeout trace subs).state =
            releaseLock (try_lock st url key).2 url key := by
          simp [stdWithLocking, h1]
        rw [hst]
        exact stdWithLocking_ok_of_free _ url key none trace2 subs2
          (not_mem_heldSet_releaseLock _ url key)
    | false =>
      cases timeout with
      | none => simp [stdWithLocking, h1] at hok
      | some d =>
        cases hw : (waitLoop url key (try_lock st url key).2 trace).acquired with
        | false => simp [stdWithLocking, h1, hw] at hok
        | true =>
          refine ⟨?_, ?_, ?_, ?_, ?_⟩
          · simp [stdWithLocking, h1, hw, not_mem_heldSet_releaseLock]
          · simp [stdWithLocking, h1, hw]
          · simp [stdWithLocking, h1, hw]
          · intro subs2
            simp [stdWithLocking, h1, hw]
          · intro trace2 subs2
            have hst : (stdWithLocking (.ok ()) st url key (some d) trace subs).state =
                releaseLock (waitLoop url key (try_lock st url key).2 trace).state
                  url key := by
              simp [stdWithLocking, h1, hw]
            rw [hst]
            exact stdWithLocking_ok_of_free _ url key none trace2 subs2
              (not_mem_heldSet_releaseLock _ url key)

theorem C7_acquire_release_identity_witness :
    "k" ∉ heldSet (stdWithLocking (.ok ()) [] "u" "k" none [] 0).state "u" ∧
    (stdWithLocking (.ok ()) [] "u" "k" none [] 0).published = [("u", "k")] ∧
    (stdWithLocking (.ok ()) (stdWithLocking (.ok ()) [] "u" "k" none [] 0).state
        "u" "k" none [] 5).result = .ok () := by
  have h := C7_acquire_release_identity (.ok ()) [] "u" "k" none [] 0 (by decide)
  exact ⟨h.1, h.2.1, h.2.2.2.2 [] 5⟩

/-! ### Claim C3 — who normalizes the key -/

/-- C3 counterexample: the in-process strategy performs NO normalization.
With the 65-byte test key, a `StdCollectionLocker::with_locking` run inserts,
publishes and reports the raw key itself: a call on a free registry publishes
the raw key, a call against a registry holding the raw key fails with
`FailedToGetLock` carrying the raw key — yet the raw key is not its own
normalization (its normalization is 64 bytes, the raw key is 65). -/
theorem C3_counterexample :
    (stdWithLocking (.ok ()) [] "u" key65 none [] 1).published = [("u", key65)] ∧
    (stdWithLocking (.ok ()) [("u", [key65])] "u" key65 none [] 1).result =
      .error (.FailedToGetLock key65) ∧
    process_string key65 ≠ some key65 := by decide

/-- C3 (amended): only the delegated (MySQL) strategy normalizes the key;
there acquisition binding, the contention error and the release binding all
carry the normalized key.  The in-process strategy operates on the raw key
throughout: held-set insertion, the published release event and the
contention error all carry the caller's key unchanged. -/
theorem C3_only_mysql_normalizes (b : MySqlBackend) (k nk : String)
    (t : Option Duration) (hk : process_string k = some nk) :
    (∀ out, mysqlWithLocking b k t = some out →
      (∀ p, out.acquireBind = some p → p.1 = nk) ∧
      (∀ s, out.releaseBind = some s → s = nk) ∧
      (∀ s, out.result = .error (.FailedToGetLock s) → s = nk)) ∧
    (∀ (st : LockState) (url : String) (timeout : Option Duration)
        (trace : List LoopItem) (subs : Nat), k ∉ heldSet st url →
      (stdWithLocking (.ok ()) st url k timeout trace subs).published = [(url, k)]) ∧
    (∀ (st : LockState) (url : String) (trace : List LoopItem) (subs : Nat),
      k ∈ heldSet st url →
      (stdWithLocking (.ok ()) st url k none trace subs).result =
        .error (.FailedToGetLock k)) := by
  refine ⟨?_, ?_, ?_⟩
  · intro out hout
    unfold mysqlWithLocking at hout
    rw [hk] at hout
    simp only [Option.some.injEq] at hout
    subst hout
    obtain ⟨br, gl, rr⟩ := b
    cases br with
    | error e => simp
    | ok uu =>
      cases uu
      cases gl with
      | error e => simp
      | ok sig =>
        cases sig with
        | none => simp
        | some s =>
          by_cases h1 : s = 1
          · subst h1
            cases rr with
            | error e => simp
            | ok v => simp
          · by_cases h0 : s = 0
            · subst h0
              simp [h1]
            · simp [h1, h0]
  · intro st url timeout trace subs hfree
    have h1 : (try_lock st url k).1 = true := (try_lock_fst_iff st url k).mpr hfree
    simp [stdWithLocking, h1]
  · intro st url trace subs hheld
    have ht := try_lock_of_mem st url k hheld
    simp [stdWithLocking, ht]

theorem C3_only_mysql_normalizes_witness :
    (stdWithLocking (.ok ()) [("u", [key65])] "u" key65 none [] 0).result =
      .error (.FailedToGetLock key65) ∧
    (stdWithLocking (.ok ()) [] "u" key65 none [] 0).published = [("u", key65)] := by
  have h := C3_only_mysql_normalizes backendContended key65
    (String.mk ("G2l1litxGfagbBWcQUymJ7cq".data ++ sha1HexChars (utf8Bytes key65)))
    none (by decide)
  exact ⟨h.2.2 [("u", [key65])] "u" [] 0 (by decide),
    h.2.1 [] "u" none [] 0 (by decide)⟩
